import Mathlib

/-!
Verification of the NoteWorthy binary translator
(`music21/noteworthy/binaryTranslate.py`) against its natural-language
specification.

The byte buffer is modelled as a `List Nat` (one entry per byte) and the
converter's cursor (`parsePosition`) as an explicit field.  Python
exceptions (`struct.error`, `TypeError`, `IndexError`, `ValueError`,
`AttributeError`, and the translator's own
`NoteworthyBinaryTranslateException`) are modelled with `Except String`;
operations that cannot raise are plain functions.  The fixed reference
tables that live in the separate `music21.noteworthy.constants` module
(not part of the shown source) are modelled from the spec, as marked on
each of them; only their shape, never their contents, matters for the
claims settled here.
-/

/-- Converter state: the `fileContents` buffer and `parsePosition` cursor of
`NWCConverter`. -/
structure PState where
  fileContents : List Nat
  parsePosition : Nat
  deriving Repr, DecidableEq

/-- Interpretation of two little-endian bytes as a signed 16-bit value, as
`struct.unpack` with format `<h` does. -/
def toSigned16 (n : Nat) : Int :=
  if n < 32768 then (n : Int) else (n : Int) - 65536

/-- Model of `NWCConverter.readLEShort` (with the default `updateParsePosition=True`):
`struct.unpack('<h', fc[pp:pp + 2])` raises `struct.error` when the slice
holds fewer than two bytes; otherwise it decodes a signed little-endian
short and advances the cursor by 2. -/
def readLEShort (s : PState) : Except String (Int × PState) :=
  match (s.fileContents.drop s.parsePosition).take 2 with
  | [b0, b1] =>
    .ok (toSigned16 (b0 + 256 * b1), { s with parsePosition := s.parsePosition + 2 })
  | _ => .error "struct.error: unpack requires a buffer of 2 bytes"

/-- Model of `NWCConverter.byteToInt`: `ord(fc[pp:pp + 1])` raises a `TypeError` when
the slice is empty (past the end of the buffer); otherwise it returns the
byte and advances the cursor by 1. -/
def byteToInt (s : PState) : Except String (Nat × PState) :=
  match (s.fileContents.drop s.parsePosition).take 1 with
  | [b] => .ok (b, { s with parsePosition := s.parsePosition + 1 })
  | _ => .error "TypeError: ord() expected a character"

/-- Model of `NWCConverter.byteToSignedInt`: a byte re-based to -128..127. -/
def byteToSignedInt (s : PState) : Except String (Int × PState) := do
  let (v, s') ← byteToInt s
  .ok (if v > 127 then (v : Int) - 256 else (v : Int), s')

/-- Model of `NWCConverter.readBytes`: returns the (possibly truncated) slice
`fc[pp:pp + n]` and always advances the cursor by `n`. -/
def readBytes (n : Nat) (s : PState) : List Nat × PState :=
  ((s.fileContents.drop s.parsePosition).take n,
   { s with parsePosition := s.parsePosition + n })

/-- Index of the first NUL byte at or after `start`, as
`fc.index(0, parsePosition)` computes it (`none` for `ValueError`). -/
def findNul (fc : List Nat) (start : Nat) : Option Nat :=
  ((fc.drop start).findIdx? (· = 0)).map (· + start)

/-- Model of `NWCConverter.readToNUL`: bytes up to (not including) the next NUL.  When
a NUL exists the cursor moves just past it; when none remains, the source's
`nulPosition = -1` makes the final `parsePosition = nulPosition + 1`
assignment reset the cursor to `0` while the rest of the buffer is
returned. -/
def readToNUL (s : PState) : List Nat × PState :=
  match findNul s.fileContents s.parsePosition with
  | some i =>
    ((s.fileContents.drop s.parsePosition).take (i - s.parsePosition),
     { s with parsePosition := i + 1 })
  | none => (s.fileContents.drop s.parsePosition, { s with parsePosition := 0 })

/-- Model of `NWCConverter.skipBytes`. -/
def skipBytes (n : Nat) (s : PState) : PState :=
  { s with parsePosition := s.parsePosition + n }

/-- Model of `NWCConverter.advanceToNotNUL`: the source advances the cursor while the
current one-byte slice equals `b'\x00'`, i.e. it skips the maximal run of
NUL bytes starting at the cursor (stopping at the end of the buffer, where
the slice is empty). -/
def advanceToNotNUL (s : PState) : PState :=
  { s with parsePosition :=
      s.parsePosition + ((s.fileContents.drop s.parsePosition).takeWhile (· = 0)).length }

/-- The 20-byte ASCII signature checked at file start. -/
def sigArtWare : List Nat := "[NoteWorthy ArtWare]".data.map Char.toNat

/-- Python 3 equality between a `bytes` value and a `str` value: the two
types never compare equal, so this is constantly `false`.  The source's
second signature check compares the bytes read from the file with the *str*
literal `'[NoteWorthy Composer]'`. -/
def bytesEqPyStr (_bs : List Nat) (_s : String) : Bool := false

/-- Model of `NWCConverter.isValidNWCFile` (with the default
`updateParsePosition=True`, the only way the source calls it): rewinds to
position 0, reads the first NUL-terminated field and compares it with the
fixed signature, skips two fields, reads the second field and compares it
with a `str` literal (a comparison that always fails in Python 3, see
`bytesEqPyStr`).  Returns the verdict and the mutated state. -/
def isValidNWCFile (s0 : PState) : Bool × PState :=
  let s := { s0 with parsePosition := 0 }
  let (header1, s) := readToNUL s
  if header1 ≠ sigArtWare then (false, s)
  else
    let (_junk1, s) := readToNUL s
    let (_junk2, s) := readToNUL s
    let (header2, s) := readToNUL s
    if bytesEqPyStr header2 "[NoteWorthy Composer]" = false then (false, s)
    else (true, s)

/-- Model of `NWCConverter.versionFromHex`: the fixed table of known version codes. -/
def versionFromHex (n : Int) : Option Nat :=
  if n = 0x0114 then some 120
  else if n = 0x011E then some 130
  else if n = 0x0132 then some 150
  else if n = 0x0137 then some 155
  else if n = 0x0146 then some 170
  else if n = 0x014B then some 175
  else if n = 0x0200 then some 200
  else if n = 0x0201 then some 201
  else none

/-- Model of `NWCConverter.fileVersion` (default `updateParsePosition=True`): seeks to
offset 45, reads a little-endian short and maps it through
`versionFromHex`; an unknown code falls back to 201 with a printed
warning. -/
def fileVersion (s0 : PState) : Except String (Nat × PState) := do
  let s := { s0 with parsePosition := 45 }
  let (raw, s) ← readLEShort s
  match versionFromHex raw with
  | some v => .ok (v, s)
  | none => .ok (201, s)

/-- One entry of the font table read by `parseHeader`. -/
structure FontRec where
  name : List Nat
  style : Nat
  size : Nat
  charset : Nat
  deriving Repr, DecidableEq

/-- The default font name substituted for an empty one. -/
def timesNewRoman : List Nat := "Times New Roman".data.map Char.toNat

/-- The font-table loop of `NWCConverter.parseHeader`: each entry is a
NUL-terminated name, a style byte, a size byte, one discarded byte and a
charset byte, with defaults substituted for empty name and zero size. -/
def parseFonts : Nat → PState → Except String (List FontRec × PState)
  | 0, s => .ok ([], s)
  | n + 1, s => do
    let (name, s) := readToNUL s
    let (style, s) ← byteToInt s
    let (size, s) ← byteToInt s
    let (_unused, s) ← byteToInt s
    let (charset, s) ← byteToInt s
    let name := if name = [] then timesNewRoman else name
    let size := if size = 0 then 12 else size
    let (rest, s) ← parseFonts n s
    .ok (⟨name, style, size, charset⟩ :: rest, s)

/-- The document-header record assembled by `NWCConverter.parseHeader`.
Fields that hold a fixed non-bytes default below a version gate are
modelled as `Option (List Nat)` with `none` standing for that default
(`margins`: the string `'0.0 0.0 0.0 0.0'`; `groupVisibility` /
`allowLayering`: Python `True`; `typeface` — `notationTypeface` in the
source — the string `'Maestro'`; `lyricist`: Python `None`). -/
structure Header where
  version : Nat
  user : List Nat
  title : List Nat
  author : List Nat
  lyricist : Option (List Nat)
  copyright1 : List Nat
  copyright2 : List Nat
  comment : List Nat
  extendLastSystem : List Nat
  increaseNoteSpacing : List Nat
  measureNumbers : List Nat
  measureStart : Int
  margins : Option (List Nat)
  sins : List Nat
  groupVisibility : Option (List Nat)
  allowLayering : Option (List Nat)
  typeface : Option (List Nat)
  staffHeight : Int
  fonts : List FontRec
  titlePageInfo : Nat
  staffLabels : Nat
  pageNumberStart : Int
  numberOfStaves : Nat
  deriving Repr, DecidableEq

/-- The body of `NWCConverter.parseHeader` after the version has been
resolved: the strict sequential field extraction of lines 352-433 of the
source. -/
def parseHeaderAfterVersion (version : Nat) (s : PState) :
    Except String (Header × PState) := do
  let s := skipBytes 4 s
  let (user, s) := readToNUL s
  let (_unknown, s) := readToNUL s
  let s := skipBytes 10 s
  let (title, s) := readToNUL s
  let (author, s) := readToNUL s
  let (lyricist, s) :=
    if version ≥ 200 then
      let (l, s') := readToNUL s
      (some l, s')
    else (none, s)
  let (copyright1, s) := readToNUL s
  let (copyright2, s) := readToNUL s
  let (comment, s) := readToNUL s
  let (extendLastSystem, s) := readToNUL s
  let (increaseNoteSpacing, s) := readToNUL s
  let (_unused1, s) := readToNUL s
  let (measureNumbers, s) := readToNUL s
  let (_unused2, s) := readToNUL s
  let (measureStart, s) ← readLEShort s
  let (margins, s) :=
    if version ≥ 130 then
      let (m, s') := readToNUL s
      (some m, s')
    else (none, s)
  let (sins, s) := readToNUL s
  let (_unused3, s) := readToNUL s
  let (groupVisibility, allowLayering, s) :=
    if version ≥ 130 then
      let (g, s') := readToNUL s
      let (a, s'') := readToNUL s'
      (some g, some a, s'')
    else (none, none, s)
  let (typeface, s) :=
    if version ≥ 200 then
      let (t, s') := readToNUL s
      (some t, s')
    else (none, s)
  let (staffHeight, s) ← readLEShort s
  let fontCount := if version > 170 then 12 else if version > 130 then 10 else 0
  let s := advanceToNotNUL s
  let s := skipBytes 2 s
  let (fonts, s) ← parseFonts fontCount s
  let (titlePageInfo, s) ← byteToInt s
  let (staffLabels, s) ← byteToInt s
  let (pageNumberStart, s) ← readLEShort s
  let s := if version ≥ 200 then skipBytes 1 s else s
  let (numberOfStaves, s) ← byteToInt s
  let s := skipBytes 1 s
  .ok ({ version := version, user := user, title := title, author := author,
         lyricist := lyricist, copyright1 := copyright1, copyright2 := copyright2,
         comment := comment, extendLastSystem := extendLastSystem,
         increaseNoteSpacing := increaseNoteSpacing, measureNumbers := measureNumbers,
         measureStart := measureStart, margins := margins, sins := sins,
         groupVisibility := groupVisibility, allowLayering := allowLayering,
         typeface := typeface, staffHeight := staffHeight, fonts := fonts,
         titlePageInfo := titlePageInfo, staffLabels := staffLabels,
         pageNumberStart := pageNumberStart, numberOfStaves := numberOfStaves }, s)

/-- Model of `NWCConverter.parseHeader`: calls `isValidNWCFile` but *discards* its
boolean verdict (the source's line 347 is a bare expression statement),
then resolves the version and extracts the header fields. -/
def parseHeader (s0 : PState) : Except String (Header × PState) := do
  let s := (isValidNWCFile s0).2
  let (version, s) ← fileVersion s
  parseHeaderAfterVersion version s

/-- The same decode with the signature check removed, used to state that the
check's outcome cannot influence the decode. -/
def parseHeaderNoCheck (s0 : PState) : Except String (Header × PState) := do
  let (version, s) ← fileVersion s0
  parseHeaderAfterVersion version s

/-- Whether an `Except` computation succeeded. -/
def exceptIsOk {ε α : Type} : Except ε α → Bool
  | .ok _ => true
  | .error _ => false

/-- Latin-1 decoding of a byte string (`bytes.decode('latin_1')`): byte `b`
maps to the character with code point `b`. -/
def latin1Decode (bs : List Nat) : String :=
  String.mk (bs.map (fun b => Char.ofNat b))

/-- Python `str(...)` applied to a value that is either `None` or an int. -/
def pyStrOptInt : Option Int → String
  | none => "None"
  | some i => toString i

/-- Python list indexing `l[i]` with an `Int` index: a negative index counts
from the end; out of range raises `IndexError`. -/
def pyListGet {α : Type} (l : List α) (i : Int) : Except String α :=
  let j := if 0 ≤ i then i else (l.length : Int) + i
  if j < 0 then .error "IndexError: list index out of range"
  else
    match l.get? j.toNat with
    | some a => .ok a
    | none => .error "IndexError: list index out of range"

/-- Python sequence indexing `l[i]` with a nonnegative index (`IndexError`
when out of range). -/
def listGetErr {α : Type} (l : List α) (i : Nat) : Except String α :=
  match l.get? i with
  | some a => .ok a
  | none => .error "IndexError: index out of range"

/-- Modelled from the spec: the fixed ordered clef-name table
(`constants.ClefNames`), external reference data named in §6; only its
shape matters for the claims settled here. -/
def ClefNames : List String := ["Treble", "Bass", "Alto", "Tenor"]

/-- Modelled from the spec: the fixed ordered octave-shift-name table
(`constants.OctaveShiftNames`), external reference data named in §6; its
first entry is the Python `None` (no shift), modelled as `none`. -/
def OctaveShiftNames : List (Option String) :=
  [none, some "Octave Up", some "Octave Down"]

/-- Modelled from the spec: the flat key-signature name table
(`constants.FlatMask`), a dictionary keyed by the flats byte; external
reference data named in §6. -/
def FlatMask (n : Nat) : Option String :=
  (([(2, "Bb"), (18, "Bb,Eb"), (50, "Bb,Eb,Ab")] : List (Nat × String)).lookup n)

/-- Modelled from the spec: the sharp key-signature name table
(`constants.SharpMask`), a dictionary keyed by the sharps byte; external
reference data named in §6. -/
def SharpMask (n : Nat) : Option String :=
  (([(32, "F#"), (36, "C#,F#"), (38, "C#,F#,G#")] : List (Nat × String)).lookup n)

/-- Modelled from the spec: the fixed barline style-name table
(`constants.styles`), external reference data named in §6. -/
def styles : List String :=
  ["Single", "Double", "BrokenSingle", "BrokenDouble", "SectionOpen",
   "SectionClose", "MasterRepeatOpen", "MasterRepeatClose",
   "LocalRepeatOpen", "LocalRepeatClose"]

/-- Modelled from the spec: the instrument-name-to-patch lookup
(`constants.MidiInstruments`), external reference data named in §6; the
source indexes into it (staff patch resolution, `'Gunshot'` test), so only
membership and positions matter. -/
def MidiInstruments : List String :=
  ["Acoustic Grand Piano", "Bright Acoustic Piano", "Violin", "Gunshot"]

/-- Which render closure `dumpMethod` a decoded object carries: `generic`
is `genericDumpMethod` (renders the empty string); the others are the
closures assigned by the respective variant decoders. -/
inductive DumpKind where
  | generic | clef | keySig | barline | ending | timeSig | tempo | note
  | rest | chord | text
  deriving Repr, DecidableEq

/-- The scalar fields of `NWCObject` (`__init__` defaults; `data2bytes`
models `self.data2` when it holds bytes — for a chord member `self.data2`
instead holds the nested note objects, modelled as the `children` of
`NWCObj`). -/
structure ObjCore where
  type : Option String := none
  placement : Nat := 0
  pos : Int := 0
  style : Int := 0
  localRepeatCount : Nat := 0
  data : Nat := 0
  data1 : List Nat := []
  data2bytes : List Nat := []
  data3 : Option (List Nat) := none
  delay : Nat := 0
  clefType : Int := 0
  offset : Int := 0
  visible : Nat := 0
  duration : Nat := 0
  durationStr : Option String := none
  font : Nat := 0
  sharps : Nat := 0
  octaveShift : Int := 0
  octaveShiftName : Option String := none
  clefName : Option String := none
  attribute1 : List Nat := []
  attribute2 : Nat := 0
  stemLength : Nat := 0
  dots : Nat := 0
  bits : Int := 0
  denominator : Nat := 0
  tieInfo : String := ""
  volume : Int := 0
  base : Nat := 0
  velocity : Int := 0
  count : Int := 0
  name : Option (List Nat) := none
  value : Int := 0
  flats : Nat := 0
  keyString : String := ""
  numerator : Int := 0
  alterationStr : String := ""
  dotAttribute : Option Nat := none
  text : Option (List Nat) := none
  dumpKind : DumpKind := .generic
  deriving Repr, DecidableEq

/-- The freshly initialised object (all `__init__` defaults). -/
def ObjCore.init : ObjCore := {}

/-- A decoded `NWCObject`: its scalar fields plus, for a chord member, the
nested note objects held in `self.data2`. -/
inductive NWCObj where
  | mk (core : ObjCore) (children : List NWCObj)

/-- The scalar fields of a decoded object. -/
def NWCObj.core : NWCObj → ObjCore
  | .mk c _ => c

/-- The nested objects of a chord member (empty for every other kind). -/
def NWCObj.children : NWCObj → List NWCObj
  | .mk _ cs => cs

/-- Model of `NWCObject.clef`: two little-endian shorts, then name lookups guarded by
`clefType < len(ClefNames)` (a Python comparison that also admits negative
indices, hence `pyListGet`). -/
def clef (_version : Nat) (c : ObjCore) (s : PState) :
    Except String (ObjCore × PState) := do
  let c := { c with type := some "Clef" }
  let (clefType, s) ← readLEShort s
  let (octaveShift, s) ← readLEShort s
  let c := { c with clefType := clefType, octaveShift := octaveShift }
  let c ←
    if clefType < (ClefNames.length : Int) then do
      let n ← pyListGet ClefNames clefType
      .ok { c with clefName := some n }
    else .ok c
  let c ←
    if octaveShift < (OctaveShiftNames.length : Int) then do
      let n ← pyListGet OctaveShiftNames octaveShift
      .ok { c with octaveShiftName := n }
    else .ok c
  .ok ({ c with dumpKind := .clef }, s)

/-- Model of `NWCObject.keySig`: flats byte, one skipped byte, sharps byte, seven
skipped bytes, then the key-string lookup. -/
def keySig (_version : Nat) (c : ObjCore) (s : PState) :
    Except String (ObjCore × PState) := do
  let c := { c with type := some "KeySig" }
  let (flats, s) ← byteToInt s
  let s := skipBytes 1 s
  let (sharps, s) ← byteToInt s
  let s := skipBytes 7 s
  let keyString :=
    if flats > 0 ∧ (FlatMask flats).isSome then (FlatMask flats).getD ""
    else if sharps > 0 ∧ (SharpMask sharps).isSome then (SharpMask sharps).getD ""
    else ""
  .ok ({ c with flats := flats, sharps := sharps, keyString := keyString,
                dumpKind := .keySig }, s)

/-- Model of `NWCObject.barline`: style byte and local-repeat-count byte. -/
def barline (_version : Nat) (c : ObjCore) (s : PState) :
    Except String (ObjCore × PState) := do
  let c := { c with type := some "Barline" }
  let (style, s) ← byteToInt s
  let (localRepeatCount, s) ← byteToInt s
  .ok ({ c with style := (style : Int), localRepeatCount := localRepeatCount,
                dumpKind := .barline }, s)

/-- Model of `NWCObject.ending`: style byte and one skipped byte. -/
def ending (_version : Nat) (c : ObjCore) (s : PState) :
    Except String (ObjCore × PState) := do
  let c := { c with type := some "Ending" }
  let (style, s) ← byteToInt s
  let s := skipBytes 1 s
  .ok ({ c with style := (style : Int), dumpKind := .ending }, s)

/-- Model of `NWCObject.instrument`: eight skipped bytes, a NUL-terminated name, one
skipped byte, eight skipped bytes; keeps the generic (empty) renderer. -/
def instrument (_version : Nat) (c : ObjCore) (s : PState) :
    Except String (ObjCore × PState) := do
  let c := { c with type := some "Instrument" }
  let s := skipBytes 8 s
  let (name, s) := readToNUL s
  let s := skipBytes 1 s
  let s := skipBytes 8 s
  .ok ({ c with name := some name }, s)

/-- Model of `NWCObject.timeSig`: numerator, bits and style shorts; the denominator
is `1 << bits`, which raises `ValueError` for a negative shift count. -/
def timeSig (_version : Nat) (c : ObjCore) (s : PState) :
    Except String (ObjCore × PState) := do
  let c := { c with type := some "TimeSignature" }
  let (numerator, s) ← readLEShort s
  let (bits, s) ← readLEShort s
  let denominator ←
    if bits < 0 then .error "ValueError: negative shift count"
    else .ok (1 <<< bits.toNat)
  let (style, s) ← readLEShort s
  .ok ({ c with numerator := numerator, bits := bits, denominator := denominator,
                style := style, dumpKind := .timeSig }, s)

/-- Model of `NWCObject.tempo`: position and placement bytes, value short, base byte,
a version-gated extra short, then a NUL-terminated text. -/
def tempo (version : Nat) (c : ObjCore) (s : PState) :
    Except String (ObjCore × PState) := do
  let c := { c with type := some "Tempo" }
  let (pos, s) ← byteToInt s
  let (placement, s) ← byteToInt s
  let (value, s) ← readLEShort s
  let (base, s) ← byteToInt s
  let s ←
    if version < 170 then do
      let (_junk, s') ← readLEShort s
      .ok s'
    else .ok s
  let (text, s) := readToNUL s
  .ok ({ c with pos := (pos : Int), placement := placement, value := value,
                base := base, text := some text, dumpKind := .tempo }, s)

/-- Model of `NWCObject.dynamic`: for versions below 170 the source only prints a
warning and consumes nothing; otherwise three bytes and two shorts.  Keeps
the generic renderer. -/
def dynamic (version : Nat) (c : ObjCore) (s : PState) :
    Except String (ObjCore × PState) := do
  let c := { c with type := some "Dynamic" }
  if version < 170 then .ok (c, s)
  else do
    let (pos, s) ← byteToInt s
    let (placement, s) ← byteToInt s
    let (style, s) ← byteToInt s
    let (velocity, s) ← readLEShort s
    let (volume, s) ← readLEShort s
    .ok ({ c with pos := (pos : Int), placement := placement, style := (style : Int),
                  velocity := velocity, volume := volume }, s)

/-- The fixed duration-name table of `setDurationForObject`. -/
def durationValues : List String :=
  ["Whole", "Half", "4th", "8th", "16th", "32nd", "64th"]

/-- The fixed alteration table of `NWCObject.note`. -/
def alterationTexts : List String := ["#", "b", "n", "##", "bb", ""]

/-- Model of `NWCObject.setDurationForObject`: duration-name lookup (raising
`IndexError` past index 6), the dot-attribute source (first attribute byte
for a Note, fourth secondary-data byte otherwise — raising when the field
was never filled, as Python does on `None[...]` or a short slice), dot
bits 0x01/0x04 and the grace bit 0x20 of the second attribute byte. -/
def setDurationForObject (c : ObjCore) : Except String (String × ObjCore) := do
  let durStr ← listGetErr durationValues c.duration
  let (dotAttribute, grace) ←
    if c.type = some "Note" then do
      let a0 ← listGetErr c.attribute1 0
      let a1 ← listGetErr c.attribute1 1
      .ok (a0, a1 &&& 0x20)
    else do
      let d3 ← listGetErr c.data2bytes 3
      .ok (d3, 0)
  let dots : Nat :=
    if dotAttribute &&& 0x01 > 0 then 2
    else if dotAttribute &&& 0x04 > 0 then 1
    else 0
  let durStr :=
    if dots = 1 then durStr ++ ",Dotted"
    else if dots = 2 then durStr ++ ",DblDotted"
    else durStr
  let durStr := if grace > 0 then durStr ++ ",Grace" else durStr
  .ok (durStr, { c with dotAttribute := some dotAttribute, dots := dots })

/-- Model of `NWCObject.note`: for versions below 170 the source prints a warning and
parses nothing (the later field accesses then raise); otherwise duration
byte, three data bytes, two attribute bytes, negated signed position byte,
second attribute byte, version-gated trailing fields; then duration
string, alteration lookup (low three bits of the second attribute byte)
and tie flag (bit 0x10 of the first attribute byte). -/
def note (version : Nat) (c : ObjCore) (s : PState) :
    Except String (ObjCore × PState) := do
  let c := { c with type := some "Note" }
  let (c, s) ←
    if version < 170 then .ok (c, s)
    else do
      let (duration, s) ← byteToInt s
      let (data2, s) := readBytes 3 s
      let (attribute1, s) := readBytes 2 s
      let (posRaw, s) ← byteToSignedInt s
      let pos := -1 * posRaw
      let (attribute2, s) ← byteToInt s
      let (data3, s) :=
        if version ≤ 170 then
          let (d, s') := readBytes 2 s
          (some d, s')
        else (none, s)
      let (stemLength, s) ←
        if version ≥ 200 then
          if attribute2 &&& 0x40 ≠ 0 then byteToInt s
          else .ok (7, s)
        else .ok (7, s)
      .ok ({ c with duration := duration, data2bytes := data2,
                    attribute1 := attribute1, pos := pos, attribute2 := attribute2,
                    data3 := data3, stemLength := stemLength }, s)
  let (durationStr, c) ← setDurationForObject c
  let alterationIndex := c.attribute2 &&& 0x07
  let alterationStr :=
    if alterationIndex < alterationTexts.length then
      (alterationTexts.get? alterationIndex).getD ""
    else ""
  let ordAtt1 ← listGetErr c.attribute1 0
  let tieInfo := if ordAtt1 &&& 0x10 > 0 then "^" else ""
  .ok ({ c with durationStr := some durationStr, alterationStr := alterationStr,
                tieInfo := tieInfo, dumpKind := .note }, s)

/-- Model of `NWCObject.rest`: for versions at or below 150 the source prints and
parses nothing (the duration-string step then raises); otherwise duration
byte, five data bytes and an offset short. -/
def rest (version : Nat) (c : ObjCore) (s : PState) :
    Except String (ObjCore × PState) := do
  let c := { c with type := some "Rest" }
  let (c, s) ←
    if version ≤ 150 then .ok (c, s)
    else do
      let (duration, s) ← byteToInt s
      let (data2, s) := readBytes 5 s
      let (offset, s) ← readLEShort s
      .ok ({ c with duration := duration, data2bytes := data2, offset := offset }, s)
  let (durationStr, c) ← setDurationForObject c
  .ok ({ c with durationStr := some durationStr, dumpKind := .rest }, s)

/-- The chord-member child loop: `numberOfNotes` recursive invocations of
the object parser (`chordNote.parseObject()`), each appended to the
chord's `data2` list. -/
def chordChildrenLoop
    (childParse : PState → Except String (NWCObj × Option (Option String) × PState)) :
    Nat → PState → Except String (List NWCObj × PState)
  | 0, s => .ok ([], s)
  | n + 1, s => do
    let (kid, _, s) ← childParse s
    let (kids, s) ← chordChildrenLoop childParse n s
    .ok (kid :: kids, s)

/-- Model of `NWCObject.noteChordMember`: a version-gated prefix (12 bytes when
`version <= 170`; 10 bytes when `version == 175`, with byte 8 as embedded
child count; 8 bytes otherwise), for `version >= 200` an optional extra
stem-length byte controlled by bit 0x40 of prefix byte 7, then the
recursive child parses. -/
def noteChordMember
    (childParse : PState → Except String (NWCObj × Option (Option String) × PState))
    (version : Nat) (c : ObjCore) (s : PState) :
    Except String (ObjCore × List NWCObj × PState) := do
  let c := { c with type := some "NoteChordMember" }
  let (data1, s) :=
    if version ≤ 170 then readBytes 12 s
    else if version = 175 then readBytes 10 s
    else readBytes 8 s
  let numberOfNotes ←
    if version ≤ 170 then .ok 0
    else if version = 175 then listGetErr data1 8
    else .ok 0
  let (stemLength, s) ←
    if version ≥ 200 then do
      let b7 ← listGetErr data1 7
      if b7 &&& 0x40 ≠ 0 then byteToInt s else .ok (7, s)
    else .ok (7, s)
  let (kids, s) ← chordChildrenLoop childParse numberOfNotes s
  .ok ({ c with data1 := data1, stemLength := stemLength, dumpKind := .chord },
       kids, s)

/-- Model of `NWCObject.pedal`: below version 170 the source only prints; otherwise
three bytes.  Generic renderer. -/
def pedal (version : Nat) (c : ObjCore) (s : PState) :
    Except String (ObjCore × PState) := do
  let c := { c with type := some "Pedal" }
  if version < 170 then .ok (c, s)
  else do
    let (pos, s) ← byteToInt s
    let (placement, s) ← byteToInt s
    let (style, s) ← byteToInt s
    .ok ({ c with pos := (pos : Int), placement := placement,
                  style := (style : Int) }, s)

/-- Model of `NWCObject.flowDir`: two version-gated bytes (defaults -8 / 0x01 below
version 170) then a style short.  Generic renderer. -/
def flowDir (version : Nat) (c : ObjCore) (s : PState) :
    Except String (ObjCore × PState) := do
  let c := { c with type := some "FlowDir" }
  let (c, s) ←
    if version ≥ 170 then do
      let (pos, s) ← byteToInt s
      let (placement, s) ← byteToInt s
      .ok ({ c with pos := (pos : Int), placement := placement }, s)
    else .ok ({ c with pos := -8, placement := 0x01 }, s)
  let (style, s) ← readLEShort s
  .ok ({ c with style := style }, s)

/-- Model of `NWCObject.mpc` (midi instructions): position and placement bytes, then
a version-gated block of 31 or 32 bytes.  Generic renderer. -/
def mpc (version : Nat) (c : ObjCore) (s : PState) :
    Except String (ObjCore × PState) := do
  let c := { c with type := some "MPC" }
  let (pos, s) ← byteToInt s
  let (placement, s) ← byteToInt s
  let (data1, s) :=
    if version = 175 then readBytes 32 s
    else if version > 155 then readBytes 31 s
    else readBytes 32 s
  .ok ({ c with pos := (pos : Int), placement := placement, data1 := data1 }, s)

/-- Model of `NWCObject.tempoVariation`: four bytes, in version-gated order (and a
masked style below version 170).  Generic renderer. -/
def tempoVariation (version : Nat) (c : ObjCore) (s : PState) :
    Except String (ObjCore × PState) := do
  let c := { c with type := some "TempoVariation" }
  if version ≥ 170 then do
    let (pos, s) ← byteToInt s
    let (placement, s) ← byteToInt s
    let (style, s) ← byteToInt s
    let (delay, s) ← byteToInt s
    .ok ({ c with pos := (pos : Int), placement := placement,
                  style := (style : Int), delay := delay }, s)
  else do
    let (style, s) ← byteToInt s
    let style := style &&& 0x0F
    let (pos, s) ← byteToInt s
    let (placement, s) ← byteToInt s
    let (delay, s) ← byteToInt s
    .ok ({ c with pos := (pos : Int), placement := placement,
                  style := (style : Int), delay := delay }, s)

/-- Model of `NWCObject.dynamicVariation`: position byte, version-gated placement
byte, style byte.  Generic renderer. -/
def dynamicVariation (version : Nat) (c : ObjCore) (s : PState) :
    Except String (ObjCore × PState) := do
  let c := { c with type := some "DynamicVariation" }
  let (pos, s) ← byteToInt s
  let (placement, s) ←
    if version ≥ 170 then byteToInt s
    else .ok (0, s)
  let (style, s) ← byteToInt s
  .ok ({ c with pos := (pos : Int), placement := placement,
                style := (style : Int) }, s)

/-- Model of `NWCObject.performance`: position byte, version-gated placement byte,
style byte.  Generic renderer. -/
def performance (version : Nat) (c : ObjCore) (s : PState) :
    Except String (ObjCore × PState) := do
  let c := { c with type := some "Performance" }
  let (pos, s) ← byteToInt s
  let (placement, s) ←
    if version ≥ 170 then byteToInt s
    else .ok (0, s)
  let (style, s) ← byteToInt s
  .ok ({ c with pos := (pos : Int), placement := placement,
                style := (style : Int) }, s)

/-- Model of `NWCObject.textObj`: three bytes and a NUL-terminated text.  The label
context is `some label` when the parent is a staff and `none` when the
parent is a chord member (which has no `label` attribute, so the access
raises `AttributeError`).  When the staff label is unset the text is
consumed as the (latin-1 decoded) label, the object's text is cleared and
the renderer stays generic; otherwise the text-rendering closure is
attached. -/
def textObj (_version : Nat) (ctx : Option (Option String)) (c : ObjCore)
    (s : PState) : Except String (NWCObj × Option (Option String) × PState) := do
  let c := { c with type := some "Text" }
  let (pos, s) ← byteToInt s
  let (data, s) ← byteToInt s
  let (font, s) ← byteToInt s
  let (text, s) := readToNUL s
  let c := { c with pos := (pos : Int), data := data, font := font, text := some text }
  match ctx with
  | none => .error "AttributeError: label"
  | some label =>
    if label = none then
      .ok (.mk { c with text := none } [], some (some (latin1Decode text)), s)
    else
      .ok (.mk { c with dumpKind := .text } [], some label, s)

/-- Model of `NWCObject.restChordMember`: a count short and eight skipped bytes.
Generic renderer. -/
def restChordMember (_version : Nat) (c : ObjCore) (s : PState) :
    Except String (ObjCore × PState) := do
  let c := { c with type := some "RestChordMember" }
  let (count, s) ← readLEShort s
  let s := skipBytes 8 s
  .ok ({ c with count := count }, s)

/-- Tags for the nineteen entries of the `objMethods` dispatch table. -/
inductive MethodTag where
  | clef | keySig | barline | ending | instrument | timeSig | tempo | dynamic
  | note | rest | noteChordMember | pedal | flowDir | mpc | tempoVariation
  | dynamicVariation | performance | textObj | restChordMember
  deriving Repr, DecidableEq

/-- Model of `NWCObject.objMethods`: the fixed ordered dispatch table (indices
0 to 18). -/
def objMethods : List MethodTag :=
  [.clef, .keySig, .barline, .ending, .instrument, .timeSig, .tempo, .dynamic,
   .note, .rest, .noteChordMember, .pedal, .flowDir, .mpc, .tempoVariation,
   .dynamicVariation, .performance, .textObj, .restChordMember]

/-- Invocation of the variant decoder selected from the dispatch table.
`childParse` is the recursive object parser handed to the chord-member
decoder; `ctx` is the staff-label context threaded to `textObj`. -/
def dispatchMethod
    (childParse : PState → Except String (NWCObj × Option (Option String) × PState))
    (version : Nat) (tag : MethodTag) (ctx : Option (Option String))
    (c : ObjCore) (s : PState) :
    Except String (NWCObj × Option (Option String) × PState) :=
  match tag with
  | .clef => (clef version c s).map (fun (c, s) => (.mk c [], ctx, s))
  | .keySig => (keySig version c s).map (fun (c, s) => (.mk c [], ctx, s))
  | .barline => (barline version c s).map (fun (c, s) => (.mk c [], ctx, s))
  | .ending => (ending version c s).map (fun (c, s) => (.mk c [], ctx, s))
  | .instrument => (instrument version c s).map (fun (c, s) => (.mk c [], ctx, s))
  | .timeSig => (timeSig version c s).map (fun (c, s) => (.mk c [], ctx, s))
  | .tempo => (tempo version c s).map (fun (c, s) => (.mk c [], ctx, s))
  | .dynamic => (dynamic version c s).map (fun (c, s) => (.mk c [], ctx, s))
  | .note => (note version c s).map (fun (c, s) => (.mk c [], ctx, s))
  | .rest => (rest version c s).map (fun (c, s) => (.mk c [], ctx, s))
  | .noteChordMember =>
    (noteChordMember childParse version c s).map (fun (c, kids, s) => (.mk c kids, ctx, s))
  | .pedal => (pedal version c s).map (fun (c, s) => (.mk c [], ctx, s))
  | .flowDir => (flowDir version c s).map (fun (c, s) => (.mk c [], ctx, s))
  | .mpc => (mpc version c s).map (fun (c, s) => (.mk c [], ctx, s))
  | .tempoVariation => (tempoVariation version c s).map (fun (c, s) => (.mk c [], ctx, s))
  | .dynamicVariation => (dynamicVariation version c s).map (fun (c, s) => (.mk c [], ctx, s))
  | .performance => (performance version c s).map (fun (c, s) => (.mk c [], ctx, s))
  | .textObj => textObj version ctx c s
  | .restChordMember => (restChordMember version c s).map (fun (c, s) => (.mk c [], ctx, s))

/-- Model of `NWCObject.parseObject`: read the 16-bit type tag; outside
`[0, len(objMethods) - 1]` raise `NoteworthyBinaryTranslateException`;
otherwise read the version-gated visibility byte and dispatch through the
table.  `fuel` bounds the chord recursion depth (each nesting level
consumes buffer bytes, so any fuel at least the buffer length is enough;
it is not part of the source, which recurses directly). -/
def parseObject : Nat → Nat → Option (Option String) → PState →
    Except String (NWCObj × Option (Option String) × PState)
  | 0, _, _, _ => .error "recursion depth exceeded"
  | fuel + 1, version, ctx, s =>
    match readLEShort s with
    | .error e => .error e
    | .ok (objectType, s) =>
      if objectType ≥ (objMethods.length : Int) ∨ objectType < 0 then
        .error ("Cannot translate objectType: " ++ toString objectType ++
                "; max is " ++ toString objMethods.length)
      else
        match (if version ≥ 170 then byteToInt s else .ok (0, s)) with
        | .error e => .error e
        | .ok (visible, s) =>
          match objMethods.get? objectType.toNat with
          | none => .error "unreachable: index checked above"
          | some tag =>
            dispatchMethod (parseObject fuel version none) version tag ctx
              { ObjCore.init with visible := visible } s

/-- The per-staff alteration memory `previousAlteration` (a Python dict
from pitch class to the last alteration string). -/
def AltMem : Type := Int → Option String

/-- The empty alteration memory (`{}`). -/
def altEmpty : AltMem := fun _ => none

/-- Overwriting one pitch-class entry (`previousAlteration[pc] = v`). -/
def altInsert (pc : Int) (v : String) (mem : AltMem) : AltMem :=
  fun k => if k = pc then some v else mem k

/-- Insertion-ordered grouping used by the chord renderer: append `v` to the
group of key `k`, creating the group at the end on first sight (Python
dicts preserve insertion order). -/
def chordGroupInsert (groups : List (Option String × List String))
    (k : Option String) (v : String) : List (Option String × List String) :=
  match groups with
  | [] => [(k, [v])]
  | (k', vs) :: gs =>
    if k' = k then (k', vs ++ [v]) :: gs else (k', vs) :: chordGroupInsert gs k v

/-- The grouping loop of the chord renderer: left-to-right over the chord's
children, `notes[d.durationStr].append(d.alterationStr + str(d.pos) +
d.tieInfo)`. -/
def chordGroups : List (Option String × List String) → List NWCObj →
    List (Option String × List String)
  | groups, [] => groups
  | groups, d :: ds =>
    chordGroups
      (chordGroupInsert groups d.core.durationStr
        (d.core.alterationStr ++ toString d.core.pos ++ d.core.tieInfo)) ds

/-- The emission loop of the chord renderer: one `|Dur:...|Pos:...` segment
per distinct duration in first-seen order; a `None` duration key raises
`TypeError` at `'|Dur:' + n`. -/
def chordBuild : List (Option String × List String) → Except String String
  | [] => .ok ""
  | (k, vs) :: gs => do
    let n ← match k with
      | some n => .ok n
      | none => .error "TypeError: can only concatenate str"
    let restStr ← chordBuild gs
    .ok ("|Dur:" ++ n ++ "|Pos:" ++ String.intercalate "," vs ++ restStr)

/-- Execution of a decoded object's render closure (`o.dumpMethod(o)`).
`inst` is the owning staff's `instrumentName` (read by the clef renderer);
`mem` is the converter's `previousAlteration` dictionary, read and
overwritten by the note renderer and cleared by the barline renderer. -/
def runDump (inst : Option String) (mem : AltMem) (o : NWCObj) :
    Except String (String × AltMem) :=
  match o.core.dumpKind with
  | .generic => .ok ("", mem)
  | .clef =>
    let clefName :=
      if inst = some "Gunshot" then some "Percussion" else o.core.clefName
    let build := "|Clef|"
    let build :=
      match clefName with
      | some cn => if cn ≠ "" then build ++ "Type:" ++ cn ++ "|" else build
      | none => build
    let build :=
      match o.core.octaveShiftName with
      | some oc => if oc ≠ "" then build ++ "OctaveShift:" ++ oc ++ "|" else build
      | none => build
    .ok (build, mem)
  | .keySig => .ok ("|Key|Signature:" ++ o.core.keyString, mem)
  | .barline =>
    let mem := altEmpty
    let build := "|Bar|"
    let build :=
      if 0 < o.core.style ∧ o.core.style < (styles.length : Int) then
        build ++ "|Style:" ++ ((styles.get? o.core.style.toNat).getD "")
      else build
    .ok (build, mem)
  | .ending => .ok ("|Ending|Endings:" ++ toString o.core.style, mem)
  | .timeSig =>
    .ok ("|TimeSig|Signature:" ++ toString o.core.numerator ++ "/" ++
         toString o.core.denominator, mem)
  | .tempo => .ok ("|Tempo|Tempo:" ++ toString o.core.value, mem)
  | .note =>
    match o.core.durationStr with
    | none => .error "TypeError: can only concatenate str"
    | some d =>
      let build := "|Note|Dur:" ++ d ++ "|"
      let alteration := o.core.alterationStr
      let alteration :=
        if alteration = "" then (mem (o.core.pos % 7)).getD "" else alteration
      let build :=
        build ++ "Pos:" ++ alteration ++ toString o.core.pos ++ o.core.tieInfo ++ "|"
      .ok (build, altInsert (o.core.pos % 7) o.core.alterationStr mem)
  | .rest =>
    match o.core.durationStr with
    | none => .error "TypeError: can only concatenate str"
    | some d => .ok ("|Rest|Dur:" ++ d ++ "|", mem)
  | .chord =>
    (chordBuild (chordGroups [] o.children)).map (fun b => ("|Chord" ++ b, mem))
  | .text =>
    match o.core.text with
    | some bs => .ok ("|Text|Text:" ++ latin1Decode bs, mem)
    | none => .error "TypeError: can only concatenate str"

/-- The object loop of `NWCStaff.dump`: render each object in order and
append the non-empty lines. -/
def dumpLoop (inst : Option String) (mem : AltMem) :
    List NWCObj → Except String (List String × AltMem)
  | [] => .ok ([], mem)
  | o :: os => do
    let (d, mem') ← runDump inst mem o
    let (lines, memF) ← dumpLoop inst mem' os
    .ok ((if d ≠ "" then d :: lines else lines), memF)

/-- The staff fields consumed by `NWCStaff.dump`, with name strings already
in decoded form. -/
structure StaffRec where
  label : Option String
  instrumentName : Option String
  transposition : Option Int
  objects : List NWCObj

/-- The header-line prefix of `NWCStaff.dump`: substitute a missing label,
build the AddStaff line and the StaffInstrument line (`'|Name:' + None`
raises `TypeError`; a name absent from `MidiInstruments` raises
`ValueError` at `.index`). -/
def staffHeaderLines (st : StaffRec) : Except String (String × String) := do
  let label :=
    match st.label with
    | some l => l
    | none => st.instrumentName.getD "NoName"
  let line1 := "|AddStaff|Name:" ++ label
  let iname ←
    match st.instrumentName with
    | some n => .ok n
    | none => .error "TypeError: can only concatenate str"
  let instru := "|Name:" ++ iname
  let idx ←
    match MidiInstruments.findIdx? (· == iname) with
    | some i => .ok i
    | none => .error "ValueError: not in list"
  let patch := "|Patch:" ++ toString idx
  let transpo := "|Trans:" ++ pyStrOptInt st.transposition
  .ok (line1, "|StaffInstrument" ++ instru ++ patch ++ transpo)

/-- Model of `NWCStaff.dump`: the two header lines, then the rendered object lines
with empty renders skipped. -/
def staffDump (mem : AltMem) (st : StaffRec) :
    Except String (List String × AltMem) := do
  let (line1, line2) ← staffHeaderLines st
  let (lines, mem) ← dumpLoop st.instrumentName mem st.objects
  .ok (line1 :: line2 :: lines, mem)

/-- The converter fields consumed by `dumpToNWCText`. -/
structure DocRec where
  title : List Nat
  author : List Nat
  staves : List StaffRec

/-- The leading metadata line of `dumpToNWCText`. -/
def songInfoLine (d : DocRec) : String :=
  "|SongInfo|Title:" ++ latin1Decode d.title ++ "|Author:" ++ latin1Decode d.author

/-- The staff loop of `dumpToNWCText`: `self.previousAlteration = {}` before
each staff, then that staff's dump lines, in order. -/
def dumpStavesLoop : List StaffRec → Except String (List String)
  | [] => .ok []
  | st :: sts => do
    let (lines, _) ← staffDump altEmpty st
    let more ← dumpStavesLoop sts
    .ok (lines ++ more)

/-- Model of `NWCConverter.dumpToNWCText`: the SongInfo line followed by every
staff's dump lines. -/
def dumpToNWCText (d : DocRec) : Except String (List String) := do
  let body ← dumpStavesLoop d.staves
  .ok (songInfoLine d :: body)

/-- Rendering that keeps every line, the empty ones included; used to state
the corrected shape of the emitted output. -/
def dumpLinesAll (inst : Option String) (mem : AltMem) :
    List NWCObj → Except String (List String × AltMem)
  | [] => .ok ([], mem)
  | o :: os => do
    let (d, mem') ← runDump inst mem o
    let (lines, memF) ← dumpLinesAll inst mem' os
    .ok (d :: lines, memF)

/-- The per-staff line block of the corrected output description: the two
header lines plus the rendered lines filtered to the non-empty ones. -/
def staffLinesAmended (st : StaffRec) : Except String (List String) := do
  let (line1, line2) ← staffHeaderLines st
  let (allLines, _) ← dumpLinesAll st.instrumentName altEmpty st.objects
  .ok (line1 :: line2 :: allLines.filter (· ≠ ""))

/-- The syllable loop of `NWCStaff.parseLyrics`: NUL-terminated reads until
the first empty syllable or the hard cap of 1000 reads. -/
def syllableLoop : Nat → PState → List (List Nat) × PState
  | 0, s => ([], s)
  | maxRead + 1, s =>
    let (syllable, s') := readToNUL s
    if syllable = [] then ([], s')
    else
      let (syls, s'') := syllableLoop maxRead s'
      (syllable :: syls, s'')

/-- One iteration of the lyric-slot loop of `NWCStaff.parseLyrics`: the
block-size short (a read failure is caught and recovered as size zero with
a warning); for a positive size, the inner size short, the recorded block
start, one junk short, the syllable scan, and the unconditional seek to
`parsePositionStart + lyricBlockSize`.  Returns `none` for a skipped
slot. -/
def parseLyricSlot (s : PState) :
    Except String (Option (List (List Nat)) × PState) :=
  let (lyricBlockSize, s) :=
    match readLEShort s with
    | .ok (v, s') => (v, s')
    | .error _ => (0, s)
  if lyricBlockSize > 0 then do
    let (_lyricSize, s) ← readLEShort s
    let parsePositionStart := s.parsePosition
    let (_junk, s) ← readLEShort s
    let (syllables, s) := syllableLoop 1000 s
    let s := { s with parsePosition := parsePositionStart + lyricBlockSize.toNat }
    .ok (some syllables, s)
  else .ok (none, s)

/-- The slot loop of `NWCStaff.parseLyrics`. -/
def lyricSlotsLoop : Nat → PState → Except String (List (List (List Nat)) × PState)
  | 0, s => .ok ([], s)
  | n + 1, s => do
    let (slot, s) ← parseLyricSlot s
    let (more, s) ← lyricSlotsLoop n s
    match slot with
    | some syls => .ok (syls :: more, s)
    | none => .ok (more, s)

/-- Model of `NWCStaff.parseLyrics`: the slot loop, then (when any lyric slots were
declared) one discarded short, then the unconditional trailing short. -/
def parseLyrics (numberOfLyrics : Nat) (s : PState) :
    Except String (List (List (List Nat)) × PState) := do
  let (lyrics, s) ← lyricSlotsLoop numberOfLyrics s
  let s ←
    if numberOfLyrics > 0 then do
      let (_junk, s') ← readLEShort s
      .ok s'
    else .ok s
  let (_junk2, s) ← readLEShort s
  .ok (lyrics, s)

/-- The corrected whole-output description: per staff, its amended line
block, concatenated in order. -/
def stavesLinesAmended : List StaffRec → Except String (List String)
  | [] => .ok []
  | st :: sts => do
    let ls ← staffLinesAmended st
    let more ← stavesLinesAmended sts
    .ok (ls ++ more)

/-- The alteration last recorded at pitch class `pc` by the note renderers
of a sequence of rendered objects: the own (possibly empty) alteration of
the most recent Note object whose pitch class (`pos % 7`) is `pc`, or
`none` when no such Note occurs. -/
def lastRecorded (pc : Int) : List NWCObj → Option String
  | [] => none
  | o :: os =>
    match lastRecorded pc os with
    | some a => some a
    | none =>
      if o.core.dumpKind = DumpKind.note ∧ o.core.pos % 7 = pc then
        some o.core.alterationStr
      else none

/-- Child count and final cursor of an object-parse result (`none` on
failure). -/
def objResultView :
    Except String (NWCObj × Option (Option String) × PState) → Option (Nat × Nat)
  | .ok (o, _, s) => some (o.children.length, s.parsePosition)
  | .error _ => none

/-- A buffer whose first NUL-terminated field is not the NoteWorthy
signature (45 bytes of 1, then the version code 0x0114, then more 1s). -/
def c1buf : List Nat := List.replicate 45 1 ++ [0x14, 0x01] ++ List.replicate 17 1

/-- A lyric slot declaring block size 6: inner size field `0x0909`, junk
short, one syllable `A`, an empty syllable, then trailing bytes. -/
def c4buf : List Nat := [6, 0, 9, 9, 0, 0, 65, 0, 0, 1, 1, 1]

/-- A chord-member record for version 200 whose prefix byte 7 has bit 0x40
set: tag 10, visibility byte, 8 prefix bytes, one stem-length byte. -/
def c7buf : List Nat := [10, 0, 0, 1, 1, 1, 1, 1, 1, 1, 0x40, 5]

/-- An Instrument record (tag 4) for version 200: visibility byte, 8 skipped
bytes, NUL-terminated name `A`, 9 skipped bytes. -/
def c6objBuf : List Nat :=
  [4, 0, 0, 1, 1, 1, 1, 1, 1, 1, 1, 65, 0, 1, 1, 1, 1, 1, 1, 1, 1, 1]

/-- The Instrument object decoded from `c6objBuf` (its renderer is the
generic, empty one). -/
def c6obj : NWCObj :=
  match parseObject 2 200 (some (some "S")) ⟨c6objBuf, 0⟩ with
  | .ok (o, _, _) => o
  | .error _ => .mk ObjCore.init []

/-- A document with one staff holding exactly one decoded object record,
the Instrument record of `c6obj`. -/
def c6doc : DocRec :=
  { title := [84], author := [65],
    staves := [{ label := some "S", instrumentName := some "Violin",
                 transposition := some 0, objects := [c6obj] }] }

/-- A note object as rendered by the staff dump (only the fields its
renderer reads), used to instantiate universally quantified claims. -/
def mkNoteObj (p : Int) (alt : String) : NWCObj :=
  NWCObj.mk
    { ObjCore.init with
        dumpKind := DumpKind.note, durationStr := some "4th", pos := p,
        alterationStr := alt }
    []

/-- A successful `readLEShort` keeps the buffer and advances the cursor by
exactly 2. -/
theorem readLEShort_ok_state {s : PState} {v : Int} {s' : PState}
    (h : readLEShort s = .ok (v, s')) :
    s' = { s with parsePosition := s.parsePosition + 2 } := by
  unfold readLEShort at h
  split at h
  · simp only [Except.ok.injEq, Prod.mk.injEq] at h
    exact h.2.symm
  · simp at h

/-- A successful `byteToInt` keeps the buffer and advances the cursor by
exactly 1. -/
theorem byteToInt_ok_state {s : PState} {v : Nat} {s' : PState}
    (h : byteToInt s = .ok (v, s')) :
    s' = { s with parsePosition := s.parsePosition + 1 } := by
  unfold byteToInt at h
  split at h
  · simp only [Except.ok.injEq, Prod.mk.injEq] at h
    exact h.2.symm
  · simp at h

/-- The buffer is never changed by `readToNUL`. -/
theorem readToNUL_fileContents (s : PState) :
    (readToNUL s).2.fileContents = s.fileContents := by
  unfold readToNUL
  split <;> rfl

/-- The result of `fileVersion` depends only on the buffer, because it unconditionally
seeks to offset 45 first. -/
theorem fileVersion_congr {s₁ s₂ : PState} (h : s₁.fileContents = s₂.fileContents) :
    fileVersion s₁ = fileVersion s₂ := by
  unfold fileVersion
  have hs : ({ s₁ with parsePosition := 45 } : PState) =
      { s₂ with parsePosition := 45 } := by
    cases s₁; cases s₂; simpa using h
  rw [hs]

/-- The buffer is never changed by `isValidNWCFile`; it only moves the
cursor. -/
theorem isValidNWCFile_fileContents (s : PState) :
    (isValidNWCFile s).2.fileContents = s.fileContents := by
  unfold isValidNWCFile
  rcases h1 : readToNUL { s with parsePosition := 0 } with ⟨b1, s1⟩
  have e1 : s1.fileContents = s.fileContents := by
    have e := readToNUL_fileContents { s with parsePosition := 0 }
    rw [h1] at e; exact e
  rcases h2 : readToNUL s1 with ⟨b2, s2⟩
  have e2 : s2.fileContents = s1.fileContents := by
    have e := readToNUL_fileContents s1; rw [h2] at e; exact e
  rcases h3 : readToNUL s2 with ⟨b3, s3⟩
  have e3 : s3.fileContents = s2.fileContents := by
    have e := readToNUL_fileContents s2; rw [h3] at e; exact e
  rcases h4 : readToNUL s3 with ⟨b4, s4⟩
  have e4 : s4.fileContents = s3.fileContents := by
    have e := readToNUL_fileContents s3; rw [h4] at e; exact e
  simp only [h1, h2, h3, h4, bytesEqPyStr]
  split <;> simp [e1, e2, e3, e4]

/-- C1 (corrected): the source computes the signature verdict but never
acts on it.  `isValidNWCFile` returns `False` on a signature mismatch (in
fact always, since its second comparison pits bytes against a `str`),
`parseHeader` discards that verdict, and `fileVersion` then repositions
the cursor unconditionally, so the whole decode proceeds exactly as if the
check were absent: it does not abort and can return a full header for a
buffer with an invalid signature. -/
theorem c1_signature_check_ignored (s : PState) :
    (isValidNWCFile s).1 = false ∧ parseHeader s = parseHeaderNoCheck s := by
  constructor
  · unfold isValidNWCFile
    rcases h1 : readToNUL { s with parsePosition := 0 } with ⟨b1, s1⟩
    rcases h2 : readToNUL s1 with ⟨b2, s2⟩
    rcases h3 : readToNUL s2 with ⟨b3, s3⟩
    rcases h4 : readToNUL s3 with ⟨b4, s4⟩
    simp only [h1, h2, h3, h4, bytesEqPyStr]
    split <;> rfl
  · have key : fileVersion (isValidNWCFile s).2 = fileVersion s :=
      fileVersion_congr (isValidNWCFile_fileContents s)
    simp only [parseHeader, parseHeaderNoCheck, key]

/-- C1, counterexample to the claim as stated: a buffer whose first field is
not the signature (so the validity check reports `false`), on which the
whole-header decode nevertheless succeeds instead of aborting fatally. -/
theorem c1_counterexample :
    (isValidNWCFile ⟨c1buf, 0⟩).1 = false ∧
    exceptIsOk (parseHeader ⟨c1buf, 0⟩) = true := by
  exact ⟨rfl, rfl⟩

/-- C2 (corrected): at or past the end of the buffer, `readBytes` and
`readToNUL` indeed return an empty result without raising, but
`readLEShort` raises `struct.error` and `byteToInt` raises `TypeError`
instead of returning a truncated result. -/
theorem c2_primitive_reads_truncation (buf : List Nat) (pos n : Nat)
    (h : buf.length ≤ pos) :
    readBytes n ⟨buf, pos⟩ = ([], ⟨buf, pos + n⟩) ∧
    readToNUL ⟨buf, pos⟩ = ([], ⟨buf, 0⟩) ∧
    readLEShort ⟨buf, pos⟩ =
      .error "struct.error: unpack requires a buffer of 2 bytes" ∧
    byteToInt ⟨buf, pos⟩ = .error "TypeError: ord() expected a character" := by
  have hd : buf.drop pos = [] := List.drop_eq_nil_of_le h
  refine ⟨?_, ?_, ?_, ?_⟩ <;>
    simp [readBytes, readToNUL, readLEShort, byteToInt, findNul, hd]

/-- C2, counterexample to the claim as stated: with the cursor at the end of
the buffer, the primitive short and byte reads raise rather than return a
truncated result. -/
theorem c2_counterexample :
    exceptIsOk (readLEShort ⟨[], 0⟩) = false ∧
    exceptIsOk (byteToInt ⟨[], 0⟩) = false := by
  exact ⟨rfl, rfl⟩

/-- C2, witness: the corrected statement evaluated at a concrete buffer. -/
theorem c2_witness :
    readBytes 3 ⟨[5], 1⟩ = ([], ⟨[5], 1 + 3⟩) ∧
    readToNUL ⟨[5], 1⟩ = ([], ⟨[5], 0⟩) ∧
    readLEShort ⟨[5], 1⟩ =
      .error "struct.error: unpack requires a buffer of 2 bytes" ∧
    byteToInt ⟨[5], 1⟩ = .error "TypeError: ord() expected a character" :=
  c2_primitive_reads_truncation [5] 1 3 (by norm_num)

/-- C9 (confirmed): with at least four bytes available from the cursor, two
consecutive little-endian 16-bit reads each advance the cursor by exactly
2 and each return the signed 16-bit value encoded by their two bytes. -/
theorem c9_consecutive_le_shorts (buf : List Nat) (pos : Nat)
    (b0 b1 b2 b3 : Nat) (tail : List Nat)
    (h : buf.drop pos = b0 :: b1 :: b2 :: b3 :: tail) :
    readLEShort ⟨buf, pos⟩ = .ok (toSigned16 (b0 + 256 * b1), ⟨buf, pos + 2⟩) ∧
    readLEShort ⟨buf, pos + 2⟩ =
      .ok (toSigned16 (b2 + 256 * b3), ⟨buf, pos + 4⟩) := by
  have h2 : buf.drop (pos + 2) = b2 :: b3 :: tail := by
    have hdd := List.drop_drop 2 pos buf
    rw [Nat.add_comm pos 2] at *
    rw [hdd.symm] at *
    rw [h]
    rfl
  constructor
  · unfold readLEShort
    rw [h]
    rfl
  · unfold readLEShort
    rw [show (⟨buf, pos + 2⟩ : PState).fileContents.drop
          (⟨buf, pos + 2⟩ : PState).parsePosition = b2 :: b3 :: tail from h2]
    rfl

/-- C9, witness: the spec's own example `02 01 03 01`, yielding 258 then 259
with the cursor at 4. -/
theorem c9_witness :
    readLEShort ⟨[2, 1, 3, 1], 0⟩ = .ok (258, ⟨[2, 1, 3, 1], 2⟩) ∧
    readLEShort ⟨[2, 1, 3, 1], 2⟩ = .ok (259, ⟨[2, 1, 3, 1], 4⟩) := by
  have h := c9_consecutive_le_shorts [2, 1, 3, 1] 0 2 1 3 1 [] rfl
  exact ⟨h.1, h.2⟩

/-- The authoritative seek of the lyric-slot decoder: when the declared
block size is positive and the slot decode succeeds, the final cursor is
the recorded block start (the position right after the inner size field)
plus the declared size, whatever the syllable scan consumed. -/
theorem lyricSlot_seek {s : PState} {S : Int} {s₁ : PState}
    {r : Option (List (List Nat))} {s' : PState}
    (hread : readLEShort s = .ok (S, s₁)) (hpos : 0 < S)
    (hok : parseLyricSlot s = .ok (r, s')) :
    s'.parsePosition = (s₁.parsePosition + 2) + S.toNat := by
  unfold parseLyricSlot at hok
  rw [hread] at hok
  dsimp only at hok
  rw [if_pos hpos] at hok
  cases h2 : readLEShort s₁ with
  | error e => rw [h2] at hok; simp [Bind.bind, Except.bind] at hok
  | ok p =>
    obtain ⟨v, s₂⟩ := p
    rw [h2] at hok
    dsimp only [Bind.bind, Except.bind] at hok
    have hs₂ : s₂ = { s₁ with parsePosition := s₁.parsePosition + 2 } :=
      readLEShort_ok_state h2
    cases h3 : readLEShort s₂ with
    | error e => rw [h3] at hok; simp [Bind.bind, Except.bind] at hok
    | ok q =>
      obtain ⟨w, s₃⟩ := q
      rw [h3] at hok
      dsimp only at hok
      simp only [Except.ok.injEq, Prod.mk.injEq] at hok
      rw [← hok.2]
      rw [hs₂]

/-- C4 (confirmed): for a lyric slot whose declared 16-bit block size `S` is
positive, a successful slot decode leaves the cursor at exactly
`blockStart + S`, where `blockStart` is the cursor value right after the
inner size field — independently of how many syllables the scan consumed
before the empty terminator or the 1000-read cap. -/
theorem c4_lyric_block_seek (s : PState) (S : Int) (s₁ : PState)
    (r : Option (List (List Nat))) (s' : PState)
    (hread : readLEShort s = .ok (S, s₁)) (hpos : 0 < S)
    (hok : parseLyricSlot s = .ok (r, s')) :
    s'.parsePosition = (s₁.parsePosition + 2) + S.toNat :=
  lyricSlot_seek hread hpos hok

/-- C4, witness: a block of declared size 6 whose scan finds one syllable
and then stops; the cursor lands on `blockStart + 6 = (2 + 2) + 6`. -/
theorem c4_witness :
    parseLyricSlot ⟨c4buf, 0⟩ = .ok (some [[65]], ⟨c4buf, 10⟩) ∧
    (10 : Nat) = (2 + 2) + (6 : Int).toNat := by
  refine ⟨rfl, ?_⟩
  have h := c4_lyric_block_seek ⟨c4buf, 0⟩ 6 ⟨c4buf, 2⟩ (some [[65]]) ⟨c4buf, 10⟩
    rfl (by norm_num) rfl
  exact h

/-- C5 (corrected): the short, byte, block and skip reads never move the
cursor backwards, and the lyric-slot decoder seeks to exactly
`blockStart + blockSize`; but `readToNUL` is non-decreasing only when a
NUL byte remains — when none does, it resets the cursor to 0, which is a
backward move from any positive position (and the lyric seek, targeting a
declared boundary, can itself land before the scan's end). -/
theorem c5_cursor_monotonicity (s : PState) (n : Nat) :
    (∀ v s', readLEShort s = .ok (v, s') → s.parsePosition ≤ s'.parsePosition) ∧
    (∀ v s', byteToInt s = .ok (v, s') → s.parsePosition ≤ s'.parsePosition) ∧
    s.parsePosition ≤ (readBytes n s).2.parsePosition ∧
    s.parsePosition ≤ (skipBytes n s).parsePosition ∧
    (∀ i, findNul s.fileContents s.parsePosition = some i →
      (readToNUL s).2.parsePosition = i + 1 ∧ s.parsePosition < i + 1) ∧
    (findNul s.fileContents s.parsePosition = none →
      (readToNUL s).2.parsePosition = 0) ∧
    (∀ S s₁ r s', readLEShort s = .ok (S, s₁) → 0 < S →
      parseLyricSlot s = .ok (r, s') →
      s'.parsePosition = (s₁.parsePosition + 2) + S.toNat) := by
  refine ⟨?_, ?_, ?_, ?_, ?_, ?_, ?_⟩
  · intro v s' h; rw [readLEShort_ok_state h]; simp
  · intro v s' h; rw [byteToInt_ok_state h]; simp
  · simp [readBytes]
  · simp [skipBytes]
  · intro i h
    have hge : s.parsePosition ≤ i := by
      unfold findNul at h
      rcases Option.map_eq_some'.mp h with ⟨j, hj, hji⟩
      omega
    refine ⟨?_, by omega⟩
    unfold readToNUL
    rw [h]
  · intro h
    unfold readToNUL
    rw [h]
  · intro S s₁ r s' h1 h2 h3
    exact lyricSlot_seek h1 h2 h3

/-- C5, counterexample to the claim as stated: `readToNUL` on a buffer with
no remaining NUL byte moves the cursor backwards, from 1 to 0 — a plain
field-consuming operation, not the sanctioned lyric-block seek. -/
theorem c5_counterexample :
    (readToNUL ⟨[97, 98], 1⟩).2.parsePosition = 0 ∧
    ¬ (1 ≤ (readToNUL ⟨[97, 98], 1⟩).2.parsePosition) := by
  exact ⟨rfl, by decide⟩

/-- C5, witness: the corrected statement at a concrete buffer whose next NUL
sits at index 1, so the cursor moves forward past it. -/
theorem c5_witness :
    (readToNUL ⟨[7, 0, 2], 1⟩).2.parsePosition = 1 + 1 ∧ 1 < 1 + 1 := by
  have h := (c5_cursor_monotonicity ⟨[7, 0, 2], 1⟩ 0).2.2.2.2.1 1 rfl
  exact h

/-- How a successful render changes (or preserves) the alteration memory:
only the Note renderer writes it (overwriting the pitch-class entry with
the note's own alteration) and only the Barline renderer clears it. -/
theorem runDump_mem_change (inst : Option String) (mem : AltMem) (o : NWCObj)
    (d : String) (mem' : AltMem) (h : runDump inst mem o = .ok (d, mem')) :
    (o.core.dumpKind = DumpKind.note ∧
      mem' = altInsert (o.core.pos % 7) o.core.alterationStr mem) ∨
    (o.core.dumpKind = DumpKind.barline ∧ mem' = altEmpty) ∨
    (o.core.dumpKind ≠ DumpKind.note ∧ o.core.dumpKind ≠ DumpKind.barline ∧
      mem' = mem) := by
  unfold runDump at h
  cases hk : o.core.dumpKind <;> rw [hk] at h
  case generic =>
    simp only [Except.ok.injEq, Prod.mk.injEq] at h
    exact Or.inr (Or.inr ⟨by decide, by decide, h.2.symm⟩)
  case clef =>
    simp only [Except.ok.injEq, Prod.mk.injEq] at h
    exact Or.inr (Or.inr ⟨by decide, by decide, h.2.symm⟩)
  case keySig =>
    simp only [Except.ok.injEq, Prod.mk.injEq] at h
    exact Or.inr (Or.inr ⟨by decide, by decide, h.2.symm⟩)
  case barline =>
    simp only [Except.ok.injEq, Prod.mk.injEq] at h
    exact Or.inr (Or.inl ⟨rfl, h.2.symm⟩)
  case ending =>
    simp only [Except.ok.injEq, Prod.mk.injEq] at h
    exact Or.inr (Or.inr ⟨by decide, by decide, h.2.symm⟩)
  case timeSig =>
    simp only [Except.ok.injEq, Prod.mk.injEq] at h
    exact Or.inr (Or.inr ⟨by decide, by decide, h.2.symm⟩)
  case tempo =>
    simp only [Except.ok.injEq, Prod.mk.injEq] at h
    exact Or.inr (Or.inr ⟨by decide, by decide, h.2.symm⟩)
  case note =>
    cases hd : o.core.durationStr with
    | none => rw [hd] at h; simp at h
    | some dd =>
      rw [hd] at h
      dsimp only at h
      simp only [Except.ok.injEq, Prod.mk.injEq] at h
      exact Or.inl ⟨rfl, h.2.symm⟩
  case rest =>
    cases hd : o.core.durationStr with
    | none => rw [hd] at h; simp at h
    | some dd =>
      rw [hd] at h
      simp only [Except.ok.injEq, Prod.mk.injEq] at h
      exact Or.inr (Or.inr ⟨by decide, by decide, h.2.symm⟩)
  case chord =>
    cases hcb : chordBuild (chordGroups [] o.children) with
    | error e => rw [hcb] at h; simp [Except.map] at h
    | ok b =>
      rw [hcb] at h
      simp only [Except.map, Except.ok.injEq, Prod.mk.injEq] at h
      exact Or.inr (Or.inr ⟨by decide, by decide, h.2.symm⟩)
  case text =>
    cases ht : o.core.text with
    | none => rw [ht] at h; simp at h
    | some bs =>
      rw [ht] at h
      simp only [Except.ok.injEq, Prod.mk.injEq] at h
      exact Or.inr (Or.inr ⟨by decide, by decide, h.2.symm⟩)

/-- After rendering a barline-free sequence, the memory at a pitch class is
the alteration last recorded there by a Note, falling back to the initial
memory when no Note touched that pitch class. -/
theorem dumpLoop_mem (inst : Option String) (objs : List NWCObj) :
    ∀ (mem0 : AltMem) (lines : List String) (mem1 : AltMem),
      (∀ x ∈ objs, x.core.dumpKind ≠ DumpKind.barline) →
      dumpLoop inst mem0 objs = .ok (lines, mem1) →
      ∀ pc, mem1 pc =
        match lastRecorded pc objs with
        | some a => some a
        | none => mem0 pc := by
  induction objs with
  | nil =>
    intro mem0 lines mem1 _ h pc
    unfold dumpLoop at h
    simp only [Except.ok.injEq, Prod.mk.injEq] at h
    rw [← h.2]
    simp [lastRecorded]
  | cons o os ih =>
    intro mem0 lines mem1 hnb h pc
    unfold dumpLoop at h
    cases hrd : runDump inst mem0 o with
    | error e => rw [hrd] at h; simp [Bind.bind, Except.bind] at h
    | ok p =>
      obtain ⟨d, mem'⟩ := p
      rw [hrd] at h
      dsimp only [Bind.bind, Except.bind] at h
      cases hrest : dumpLoop inst mem' os with
      | error e => rw [hrest] at h; simp at h
      | ok q =>
        obtain ⟨lines', mem1'⟩ := q
        rw [hrest] at h
        dsimp only at h
        simp only [Except.ok.injEq, Prod.mk.injEq] at h
        have hmem1 : mem1 = mem1' := h.2.symm
        have hrec := ih mem' lines' mem1'
          (fun x hx => hnb x (List.mem_cons_of_mem _ hx)) hrest pc
        have hcons : lastRecorded pc (o :: os) =
            (match lastRecorded pc os with
             | some a => some a
             | none =>
               if o.core.dumpKind = DumpKind.note ∧ o.core.pos % 7 = pc then
                 some o.core.alterationStr
               else none) := rfl
        rcases runDump_mem_change inst mem0 o d mem' hrd with
          ⟨hkn, hins⟩ | ⟨hkb, _⟩ | ⟨hk1, hk2, hsame⟩
        · subst hins
          rw [hmem1, hrec, hcons]
          cases hlast : lastRecorded pc os with
          | some a => rfl
          | none =>
            dsimp only
            by_cases hpc : o.core.pos % 7 = pc
            · rw [if_pos ⟨hkn, hpc⟩]
              dsimp only
              simp only [altInsert]
              rw [if_pos hpc.symm]
            · rw [if_neg (fun hand => hpc hand.2)]
              dsimp only
              simp only [altInsert]
              rw [if_neg (fun hex => hpc hex.symm)]
        · exact absurd hkb (hnb o (List.mem_cons_self o os))
        · subst hsame
          rw [hmem1, hrec, hcons]
          cases hlast : lastRecorded pc os with
          | some a => rfl
          | none =>
            dsimp only
            rw [if_neg (fun hand => hk1 hand.1)]

/-- C3 (confirmed): within one staff's render sequence, (1) a Note with an
empty own alteration renders the alteration remembered for its pitch class
`pos % 7` (empty when none is remembered) and records its own empty
alteration there; (2) rendering any Note overwrites the memory entry of
its pitch class with the note's own, possibly empty, alteration; (3)
rendering a Barline clears the whole memory; and (4) over any barline-free
sequence rendered from a cleared memory (i.e. since the most recent
Barline), an unmarked Note renders exactly the alteration last recorded at
its pitch class, so after a fresh Barline an unmarked note renders with no
alteration. -/
theorem c3_alteration_memory :
    (∀ (inst : Option String) (mem : AltMem) (o : NWCObj) (d : String),
      o.core.dumpKind = DumpKind.note → o.core.durationStr = some d →
      o.core.alterationStr = "" →
      runDump inst mem o =
        .ok ("|Note|Dur:" ++ d ++ "|" ++ "Pos:" ++
             ((mem (o.core.pos % 7)).getD "") ++ toString o.core.pos ++
             o.core.tieInfo ++ "|",
             altInsert (o.core.pos % 7) "" mem)) ∧
    (∀ (inst : Option String) (mem : AltMem) (o : NWCObj) (d : String)
      (mem' : AltMem), o.core.dumpKind = DumpKind.note →
      runDump inst mem o = .ok (d, mem') →
      mem' = altInsert (o.core.pos % 7) o.core.alterationStr mem) ∧
    (∀ (inst : Option String) (mem : AltMem) (o : NWCObj) (d : String)
      (mem' : AltMem), o.core.dumpKind = DumpKind.barline →
      runDump inst mem o = .ok (d, mem') → mem' = altEmpty) ∧
    (∀ (inst : Option String) (objs : List NWCObj) (lines : List String)
      (mem1 : AltMem) (o : NWCObj) (d : String),
      (∀ x ∈ objs, x.core.dumpKind ≠ DumpKind.barline) →
      dumpLoop inst altEmpty objs = .ok (lines, mem1) →
      o.core.dumpKind = DumpKind.note → o.core.durationStr = some d →
      o.core.alterationStr = "" →
      (runDump inst mem1 o).map Prod.fst =
        .ok ("|Note|Dur:" ++ d ++ "|" ++ "Pos:" ++
             ((lastRecorded (o.core.pos % 7) objs).getD "") ++
             toString o.core.pos ++ o.core.tieInfo ++ "|")) := by
  have step : ∀ (inst : Option String) (mem : AltMem) (o : NWCObj) (d : String),
      o.core.dumpKind = DumpKind.note → o.core.durationStr = some d →
      o.core.alterationStr = "" →
      runDump inst mem o =
        .ok ("|Note|Dur:" ++ d ++ "|" ++ "Pos:" ++
             ((mem (o.core.pos % 7)).getD "") ++ toString o.core.pos ++
             o.core.tieInfo ++ "|",
             altInsert (o.core.pos % 7) "" mem) := by
    intro inst mem o d hk hd halt
    unfold runDump
    rw [hk, hd]
    dsimp only
    rw [halt]
    simp
  refine ⟨step, ?_, ?_, ?_⟩
  · intro inst mem o d mem' hk h
    rcases runDump_mem_change inst mem o d mem' h with
      ⟨_, hins⟩ | ⟨hkb, _⟩ | ⟨hk1, _, _⟩
    · exact hins
    · rw [hk] at hkb; cases hkb
    · exact absurd hk hk1
  · intro inst mem o d mem' hk h
    rcases runDump_mem_change inst mem o d mem' h with
      ⟨hkn, _⟩ | ⟨_, hcl⟩ | ⟨_, hk2, _⟩
    · rw [hk] at hkn; cases hkn
    · exact hcl
    · exact absurd hk hk2
  · intro inst objs lines mem1 o d hnb hloop hk hd halt
    have hm := dumpLoop_mem inst objs altEmpty lines mem1 hnb hloop (o.core.pos % 7)
    have hm' : mem1 (o.core.pos % 7) = lastRecorded (o.core.pos % 7) objs := by
      rw [hm]
      cases lastRecorded (o.core.pos % 7) objs <;> rfl
    rw [step inst mem1 o d hk hd halt]
    rw [hm']
    rfl

/-- C3, witness: after recording `#` at pitch class 3, an unmarked note at
position 10 (pitch class `10 % 7 = 3`) renders `#`. -/
theorem c3_witness :
    (runDump none (altInsert ((3 : Int) % 7) "#" altEmpty)
        (mkNoteObj 10 "")).map Prod.fst =
      .ok ("|Note|Dur:" ++ "4th" ++ "|" ++ "Pos:" ++ "#" ++
           toString (10 : Int) ++ "" ++ "|") := by
  have h := c3_alteration_memory.2.2.2 none [mkNoteObj 3 "#"]
      ["|Note|Dur:4th|Pos:#3|"] (altInsert ((3 : Int) % 7) "#" altEmpty)
      (mkNoteObj 10 "") "4th" (by decide) rfl rfl rfl rfl
  exact h.trans (by rfl)

/-- The kept lines of the staff-object loop are exactly the full render
list with the empty lines filtered out. -/
theorem dumpLoop_filter (inst : Option String) (objs : List NWCObj) :
    ∀ mem : AltMem,
      dumpLoop inst mem objs =
        (dumpLinesAll inst mem objs).map
          (fun p => (p.1.filter (· ≠ ""), p.2)) := by
  induction objs with
  | nil => intro mem; rfl
  | cons o os ih =>
    intro mem
    unfold dumpLoop dumpLinesAll
    cases hrd : runDump inst mem o with
    | error e => rfl
    | ok p =>
      obtain ⟨d, mem'⟩ := p
      dsimp only [Bind.bind, Except.bind]
      rw [ih mem']
      cases hall : dumpLinesAll inst mem' os with
      | error e => rfl
      | ok q =>
        obtain ⟨ls, m2⟩ := q
        dsimp only [Except.map]
        by_cases hd : d ≠ ""
        · rw [if_pos hd, List.filter_cons, if_pos (by simpa using hd)]
        · rw [if_neg hd, List.filter_cons, if_neg (by simpa using hd)]

/-- A staff's dump lines are the two header lines followed by the filtered
render list. -/
theorem staffDump_amended (st : StaffRec) :
    (staffDump altEmpty st).map Prod.fst = staffLinesAmended st := by
  unfold staffDump staffLinesAmended
  cases hh : staffHeaderLines st with
  | error e => rfl
  | ok p =>
    obtain ⟨l1, l2⟩ := p
    dsimp only [Bind.bind, Except.bind]
    rw [dumpLoop_filter st.instrumentName st.objects altEmpty]
    cases hall : dumpLinesAll st.instrumentName altEmpty st.objects with
    | error e => rfl
    | ok q => obtain ⟨ls, m⟩ := q; rfl

/-- The staff loop emits, staff by staff, exactly the amended per-staff line
blocks. -/
theorem dumpStavesLoop_amended (sts : List StaffRec) :
    dumpStavesLoop sts = stavesLinesAmended sts := by
  induction sts with
  | nil => rfl
  | cons st rest ih =>
    unfold dumpStavesLoop stavesLinesAmended
    rw [← staffDump_amended st]
    cases hsd : staffDump altEmpty st with
    | error e => rfl
    | ok p =>
      obtain ⟨lines, m⟩ := p
      dsimp only [Bind.bind, Except.bind, Except.map]
      rw [ih]

/-- C6 (corrected): a successful emission is the single SongInfo line
followed, for each staff in order, by its AddStaff / StaffInstrument line
pair and then one line per decoded object record *whose renderer returns a
non-empty line* — records carrying the generic (empty) renderer contribute
no line, so the output is the filtered render list, not one line per
record. -/
theorem c6_dump_structure (d : DocRec) :
    dumpToNWCText d =
      (stavesLinesAmended d.staves).map
        (fun body => songInfoLine d :: body) := by
  unfold dumpToNWCText
  rw [dumpStavesLoop_amended]
  cases stavesLinesAmended d.staves <;> rfl

/-- C6, counterexample to the claim as stated: a document with one staff
holding exactly one decoded object record (an Instrument record, whose
renderer is the generic empty one) emits 3 lines, not the
`1 + (2 + 1) = 4` lines the one-line-per-record reading demands. -/
theorem c6_counterexample :
    (dumpToNWCText c6doc).map List.length = .ok 3 ∧
    1 + (2 + (c6doc.staves.map (fun st => st.objects.length)).sum) = 4 ∧
    (3 : Nat) ≠ 4 := by
  exact ⟨rfl, rfl, by decide⟩

/-- A successful chord child loop appends exactly as many parsed objects as
the embedded count asked for. -/
theorem chordChildrenLoop_length
    (cp : PState → Except String (NWCObj × Option (Option String) × PState)) :
    ∀ (n : Nat) (s : PState) (kids : List NWCObj) (s' : PState),
      chordChildrenLoop cp n s = .ok (kids, s') → kids.length = n := by
  intro n
  induction n with
  | zero =>
    intro s kids s' h
    unfold chordChildrenLoop at h
    simp only [Except.ok.injEq, Prod.mk.injEq] at h
    rw [← h.1]
    rfl
  | succ m ih =>
    intro s kids s' h
    unfold chordChildrenLoop at h
    cases hc : cp s with
    | error e => rw [hc] at h; simp [Bind.bind, Except.bind] at h
    | ok p =>
      obtain ⟨kid, cx, s₁⟩ := p
      rw [hc] at h
      dsimp only [Bind.bind, Except.bind] at h
      cases hl : chordChildrenLoop cp m s₁ with
      | error e => rw [hl] at h; simp at h
      | ok q =>
        obtain ⟨kids', s₂⟩ := q
        rw [hl] at h
        dsimp only at h
        simp only [Except.ok.injEq, Prod.mk.injEq] at h
        rw [← h.1]
        simp [ih s₁ kids' s₂ hl]

/-- C7 (corrected): the chord-member decode consumes a version-gated fixed
prefix of 12 bytes for version at most 170, 10 bytes for version 175
(where prefix byte 8 is the embedded child count N, and the child parser
is then invoked exactly N times), and 8 bytes otherwise — except that for
version at least 200 one *additional* stem-length byte is consumed
whenever bit 0x40 of prefix byte 7 is set, which the claim's fixed-prefix
accounting misses. -/
theorem c7_chord_member_layout
    (cp : PState → Except String (NWCObj × Option (Option String) × PState))
    (version : Nat) (c : ObjCore) (s : PState) (c' : ObjCore)
    (kids : List NWCObj) (s' : PState) :
    (version ≤ 170 → noteChordMember cp version c s = .ok (c', kids, s') →
      kids = [] ∧ s'.parsePosition = s.parsePosition + 12) ∧
    (∀ n, version = 175 → (readBytes 10 s).1.get? 8 = some n →
      noteChordMember cp version c s = .ok (c', kids, s') →
      kids.length = n) ∧
    (170 < version → version ≠ 175 → version < 200 →
      noteChordMember cp version c s = .ok (c', kids, s') →
      kids = [] ∧ s'.parsePosition = s.parsePosition + 8) ∧
    (∀ b7, 200 ≤ version → (readBytes 8 s).1.get? 7 = some b7 →
      noteChordMember cp version c s = .ok (c', kids, s') →
      kids = [] ∧ s'.parsePosition =
        s.parsePosition + 8 + (if b7 &&& 0x40 ≠ 0 then 1 else 0)) := by
  refine ⟨?_, ?_, ?_, ?_⟩
  · intro hv hok
    unfold noteChordMember at hok
    rw [if_pos hv] at hok
    dsimp only [readBytes] at hok
    rw [if_pos hv] at hok
    dsimp only [Bind.bind, Except.bind] at hok
    rw [if_neg (by omega : ¬ version ≥ 200)] at hok
    dsimp only [Bind.bind, Except.bind, chordChildrenLoop] at hok
    simp only [Except.ok.injEq, Prod.mk.injEq] at hok
    exact ⟨hok.2.1.symm, by rw [← hok.2.2]⟩
  · intro n hv hget hok
    subst hv
    unfold noteChordMember at hok
    rw [if_neg (by omega : ¬ (175 : Nat) ≤ 170), if_pos rfl] at hok
    dsimp only [readBytes] at hok
    rw [if_neg (by omega : ¬ (175 : Nat) ≤ 170), if_pos rfl] at hok
    unfold listGetErr at hok
    have hget' : ((s.fileContents.drop s.parsePosition).take 10).get? 8 = some n :=
      hget
    rw [hget'] at hok
    dsimp only [Bind.bind, Except.bind] at hok
    rw [if_neg (by omega : ¬ (175 : Nat) ≥ 200)] at hok
    cases hloop : chordChildrenLoop cp n
        { s with parsePosition := s.parsePosition + 10 } with
    | error e => rw [hloop] at hok; simp [Bind.bind, Except.bind] at hok
    | ok q =>
      obtain ⟨kids₀, s₂⟩ := q
      rw [hloop] at hok
      dsimp only [Bind.bind, Except.bind] at hok
      simp only [Except.ok.injEq, Prod.mk.injEq] at hok
      rw [← hok.2.1]
      exact chordChildrenLoop_length cp n _ kids₀ s₂ hloop
  · intro h1 h2 h3 hok
    unfold noteChordMember at hok
    rw [if_neg (by omega : ¬ version ≤ 170), if_neg h2] at hok
    dsimp only [readBytes] at hok
    rw [if_neg (by omega : ¬ version ≤ 170), if_neg h2] at hok
    dsimp only [Bind.bind, Except.bind] at hok
    rw [if_neg (by omega : ¬ version ≥ 200)] at hok
    dsimp only [Bind.bind, Except.bind, chordChildrenLoop] at hok
    simp only [Except.ok.injEq, Prod.mk.injEq] at hok
    exact ⟨hok.2.1.symm, by rw [← hok.2.2]⟩
  · intro b7 hv hget hok
    unfold noteChordMember at hok
    rw [if_neg (by omega : ¬ version ≤ 170), if_neg (by omega : version ≠ 175)] at hok
    dsimp only [readBytes] at hok
    rw [if_neg (by omega : ¬ version ≤ 170), if_neg (by omega : version ≠ 175)] at hok
    dsimp only [Bind.bind, Except.bind] at hok
    rw [if_pos (by omega : version ≥ 200)] at hok
    unfold listGetErr at hok
    have hget' : ((s.fileContents.drop s.parsePosition).take 8).get? 7 = some b7 :=
      hget
    rw [hget'] at hok
    dsimp only [Bind.bind, Except.bind] at hok
    by_cases hbit : b7 &&& 0x40 ≠ 0
    · rw [if_pos hbit] at hok
      cases hb : byteToInt { s with parsePosition := s.parsePosition + 8 } with
      | error e => rw [hb] at hok; simp [Bind.bind, Except.bind] at hok
      | ok p =>
        obtain ⟨v, s₂⟩ := p
        rw [hb] at hok
        have hs₂ := byteToInt_ok_state hb
        dsimp only [Bind.bind, Except.bind, chordChildrenLoop] at hok
        simp only [Except.ok.injEq, Prod.mk.injEq] at hok
        refine ⟨hok.2.1.symm, ?_⟩
        rw [← hok.2.2, hs₂, if_pos hbit]
    · rw [if_neg hbit] at hok
      dsimp only [Bind.bind, Except.bind, chordChildrenLoop] at hok
      simp only [Except.ok.injEq, Prod.mk.injEq] at hok
      refine ⟨hok.2.1.symm, ?_⟩
      rw [← hok.2.2, if_neg hbit]

/-- C7, counterexample to the claim as stated: a version-200 chord-member
record whose prefix byte 7 has bit 0x40 set.  After the tag short and the
visibility byte (3 bytes), the decode consumes 9 bytes — the 8-byte prefix
plus one stem-length byte — ending at position 12 with zero child notes,
not at the 3 + 8 = 11 that a fixed 8-byte prefix would give. -/
theorem c7_counterexample :
    objResultView (parseObject 5 200 (some none) ⟨c7buf, 0⟩) = some (0, 12) ∧
    (12 : Nat) ≠ 3 + 8 := by
  exact ⟨rfl, by decide⟩

/-- C7, witness: the corrected statement at version 170 — a 12-byte prefix
and no child notes. -/
theorem c7_witness : ([] : List NWCObj) = [] ∧ (12 : Nat) = 0 + 12 := by
  have h := (c7_chord_member_layout (fun _ => .error "unused") 170 ObjCore.init
      ⟨List.replicate 12 1, 0⟩
      { ObjCore.init with
          type := some "NoteChordMember", data1 := List.replicate 12 1,
          stemLength := 7, dumpKind := DumpKind.chord }
      [] ⟨List.replicate 12 1, 12⟩).1 (by norm_num) rfl
  exact h

/-- C8 (confirmed): each dispatch-loop iteration reads a 16-bit type tag; a
tag outside [0, 18] aborts the decode with the translate exception (no
resynchronization), while for a tag inside the range the decode continues
with the version-gated visibility byte and the variant decoder selected
from the fixed ordered `objMethods` table. -/
theorem c8_dispatch_range (fuel version : Nat) (ctx : Option (Option String))
    (s : PState) (t : Int) (s₁ : PState)
    (hread : readLEShort s = .ok (t, s₁)) :
    ((t < 0 ∨ (19 : Int) ≤ t) →
      parseObject (fuel + 1) version ctx s =
        .error ("Cannot translate objectType: " ++ toString t ++ "; max is " ++
                toString objMethods.length)) ∧
    (0 ≤ t → ∀ tag, objMethods.get? t.toNat = some tag →
      parseObject (fuel + 1) version ctx s =
        (match (if version ≥ 170 then byteToInt s₁ else .ok (0, s₁)) with
         | .error e => .error e
         | .ok (visible, s₂) =>
           dispatchMethod (parseObject fuel version none) version tag ctx
             { ObjCore.init with visible := visible } s₂)) := by
  constructor
  · intro hrange
    unfold parseObject
    rw [hread]
    dsimp only
    have hcond : t ≥ (objMethods.length : Int) ∨ t < 0 := by
      have hlen : objMethods.length = 19 := rfl
      rw [hlen]
      rcases hrange with h | h
      · exact Or.inr h
      · exact Or.inl (by exact_mod_cast h)
    rw [if_pos hcond]
  · intro h0 tag htag
    unfold parseObject
    rw [hread]
    dsimp only
    have htl : t.toNat < objMethods.length := by
      rcases List.get?_eq_some.mp htag with ⟨hlt, _⟩
      exact hlt
    have hcond : ¬ (t ≥ (objMethods.length : Int) ∨ t < 0) := by
      have hcast : (t.toNat : Int) = t := Int.toNat_of_nonneg h0
      have hlen : objMethods.length = 19 := rfl
      rw [hlen] at htl ⊢
      omega
    rw [if_neg hcond]
    cases hv : (if version ≥ 170 then byteToInt s₁ else .ok (0, s₁)) with
    | error e => rfl
    | ok p =>
      obtain ⟨vis, s₂⟩ := p
      dsimp only
      rw [htag]

/-- C8, witness: tag 20 aborts with the translate exception; tag 2
dispatches to the barline decoder. -/
theorem c8_witness :
    parseObject 3 200 (some none) ⟨[20, 0], 0⟩ =
      .error "Cannot translate objectType: 20; max is 19" ∧
    parseObject 3 200 (some none) ⟨[2, 0, 9, 3, 4], 0⟩ =
      .ok (.mk { ObjCore.init with
                   type := some "Barline", visible := 9, style := 3,
                   localRepeatCount := 4, dumpKind := DumpKind.barline } [],
           some none, ⟨[2, 0, 9, 3, 4], 5⟩) := by
  constructor
  · exact (c8_dispatch_range 2 200 (some none) ⟨[20, 0], 0⟩ 20 ⟨[20, 0], 2⟩
      rfl).1 (Or.inr (by norm_num))
  · have h := (c8_dispatch_range 2 200 (some none) ⟨[2, 0, 9, 3, 4], 0⟩ 2
      ⟨[2, 0, 9, 3, 4], 2⟩ rfl).2 (by norm_num) MethodTag.barline rfl
    exact h.trans (by rfl)

/-- C10 (confirmed): a Text object decoded while the staff label is unset
has its (latin-1 decoded) string consumed as the staff label, its text
field cleared, and it keeps the generic renderer, emitting no line; a Text
object decoded while the label is already set keeps its text and renders a
`|Text|Text:...` line. -/
theorem c10_text_label_capture (version : Nat) (c0 : ObjCore) (s : PState)
    (p : Nat) (s₁ : PState) (dta : Nat) (s₂ : PState) (f : Nat) (s₃ : PState)
    (txt : List Nat) (s₄ : PState) (l : String) (inst : Option String)
    (mem : AltMem)
    (hk : c0.dumpKind = DumpKind.generic)
    (hp : byteToInt s = .ok (p, s₁)) (hd : byteToInt s₁ = .ok (dta, s₂))
    (hf : byteToInt s₂ = .ok (f, s₃)) (ht : readToNUL s₃ = (txt, s₄)) :
    (textObj version (some none) c0 s =
       .ok (.mk { c0 with
                    type := some "Text", pos := (p : Int), data := dta,
                    font := f, text := none } [],
            some (some (latin1Decode txt)), s₄) ∧
     runDump inst mem
       (.mk { c0 with
                type := some "Text", pos := (p : Int), data := dta,
                font := f, text := none } []) = .ok ("", mem)) ∧
    (textObj version (some (some l)) c0 s =
       .ok (.mk { c0 with
                    type := some "Text", pos := (p : Int), data := dta,
                    font := f, text := some txt, dumpKind := DumpKind.text } [],
            some (some l), s₄) ∧
     runDump inst mem
       (.mk { c0 with
                type := some "Text", pos := (p : Int), data := dta,
                font := f, text := some txt, dumpKind := DumpKind.text } []) =
       .ok ("|Text|Text:" ++ latin1Decode txt, mem)) := by
  refine ⟨⟨?_, ?_⟩, ⟨?_, ?_⟩⟩
  · unfold textObj
    rw [hp]; dsimp only [Bind.bind, Except.bind]
    rw [hd]; dsimp only [Bind.bind, Except.bind]
    rw [hf]; dsimp only [Bind.bind, Except.bind]
    rw [ht]
    rfl
  · unfold runDump
    dsimp only [NWCObj.core]
    rw [hk]
  · unfold textObj
    rw [hp]; dsimp only [Bind.bind, Except.bind]
    rw [hd]; dsimp only [Bind.bind, Except.bind]
    rw [hf]; dsimp only [Bind.bind, Except.bind]
    rw [ht]
    rfl
  · rfl

/-- C10, witness: a Text object with bytes `Hi`: with the label unset the
staff label becomes `"Hi"`, the text is cleared and no line is rendered. -/
theorem c10_witness :
    textObj 200 (some none) ObjCore.init ⟨[1, 2, 3, 72, 105, 0], 0⟩ =
      .ok (.mk { ObjCore.init with
                   type := some "Text", pos := (1 : Int), data := 2,
                   font := 3, text := none } [],
           some (some "Hi"), ⟨[1, 2, 3, 72, 105, 0], 6⟩) ∧
    runDump none altEmpty
      (.mk { ObjCore.init with
               type := some "Text", pos := (1 : Int), data := 2,
               font := 3, text := none } []) = .ok ("", altEmpty) := by
  have h := (c10_text_label_capture 200 ObjCore.init ⟨[1, 2, 3, 72, 105, 0], 0⟩
      1 ⟨[1, 2, 3, 72, 105, 0], 1⟩ 2 ⟨[1, 2, 3, 72, 105, 0], 2⟩ 3
      ⟨[1, 2, 3, 72, 105, 0], 3⟩ [72, 105] ⟨[1, 2, 3, 72, 105, 0], 6⟩ "x" none
      altEmpty rfl rfl rfl rfl rfl).1
  exact ⟨h.1.trans (by rfl), h.2⟩
